import Mathlib

/-!
Shallow embedding of the QueTrucazo server game core.

The embedded source is the Game aggregate of the games module
(Game.ts): the immutable two-player Truco/Envido state machine.
TypeScript records keyed by user id are embedded as total functions
`UserId -> _` with the absent-key default made explicit; object
literals with two computed keys are `rec2` (the later key wins, as in
JavaScript), spread updates are `rupd`.  Thrown errors become
`Except GameError`.  JavaScript numbers used for points are `Int`.

The Cards module (card ranking, envido value, round winner, dealing)
and the truco call and answer methods are not part of the available
source; those definitions are modelled from the specification and
say so in their doc comments.  The non-deterministic deal is passed
as an explicit parameter, as the design notes of the specification
prescribe for testability.
-/

abbrev UserId := Nat

structure SafeUser where
  id : UserId
  username : String
deriving DecidableEq

/-- Modelled from the spec: the Suit enumeration of the 40-card Spanish
deck belongs to the Cards module, which is missing from the available
source. -/
inductive Suit where
  | espada
  | basto
  | oro
  | copa
deriving DecidableEq

/-- Modelled from the spec: a Card is identified by suit and rank from
the 40-card Spanish deck (ranks 1..7 and 10..12) with structural
equality; the Cards module is missing from the available source. -/
structure Card where
  suit : Suit
  num : Nat
deriving DecidableEq

/-- Modelled from the spec: getCardValue of the missing Cards module.
The Truco hand ranking of a card, following the traditional hierarchy
given in the specification: 1 of swords, 1 of clubs, 7 of swords,
7 of coins, the 3s, the 2s, the remaining 1s, 12s, 11s, 10s, the
remaining 7s, 6s, 5s, 4s.  Cards of equal value draw the trick. -/
def getCardValue (c : Card) : Nat :=
  match c.num, c.suit with
  | 1, Suit.espada => 14
  | 1, Suit.basto => 13
  | 7, Suit.espada => 12
  | 7, Suit.oro => 11
  | 3, _ => 10
  | 2, _ => 9
  | 1, _ => 8
  | 12, _ => 7
  | 11, _ => 6
  | 10, _ => 5
  | 7, _ => 4
  | 6, _ => 3
  | 5, _ => 2
  | 4, _ => 1
  | _, _ => 0

/-- Modelled from the spec: the envido rank of a single card (face
cards count 0, numbered cards their face value). -/
def envidoRank (c : Card) : Int :=
  if c.num ≥ 10 then 0 else (c.num : Int)

/-- Sum of the two largest elements of a list of non-negative
integers (0 when the list is short).  Helper for the envido value. -/
def top2Sum (l : List Int) : Int :=
  let p := l.foldl
    (fun (p : Int × Int) x =>
      if x ≥ p.1 then (x, p.1) else if x > p.2 then (p.1, x) else p)
    (0, 0)
  p.1 + p.2

/-- Modelled from the spec: the candidate envido score of one suit:
20 plus the two highest envido ranks of that suit, available only
when at least two of the cards share the suit. -/
def suitEnvido (cs : List Card) (s : Suit) : Option Int :=
  let ranks := (cs.filter (fun c => c.suit == s)).map envidoRank
  if ranks.length ≥ 2 then some (20 + top2Sum ranks) else none

/-- Modelled from the spec: getEnvidoCardsValue of the missing Cards
module.  The envido number of an arbitrary set of cards of one
player: if two or more share a suit, 20 plus the two highest envido
ranks of such a suit (the best suit when several qualify); otherwise
the maximum single envido rank.  Stable under card order. -/
def getEnvidoCardsValue (cs : List Card) : Int :=
  let pairScores := [Suit.espada, Suit.basto, Suit.oro, Suit.copa].filterMap (suitEnvido cs)
  match pairScores.max? with
  | some v => v
  | none => ((cs.map envidoRank).max?).getD 0

/-- Modelled from the spec: the outcome of one trick between the two
listed players, none meaning parda (a draw). -/
def trickResult (a b : UserId) (c1 c2 : Card) : Option UserId :=
  if getCardValue c1 = getCardValue c2 then none
  else if getCardValue c1 > getCardValue c2 then some a else some b

/-- Modelled from the spec: getRoundWinner of the missing Cards
module.  Best of three tricks; returns none while the round is
undecided and a player id as soon as the outcome is determined (two
tricks won outright, a win next to a parda, or the third trick
breaking a tie).  The source signature passes no mano, so the
all-parda fallback takes the first listed player. -/
def getRoundWinner (ids : List UserId) (thrown : UserId → List Card) : Option UserId :=
  match ids with
  | [a, b] =>
    let tricks := List.zipWith (trickResult a b) (thrown a) (thrown b)
    match tricks with
    | [] => none
    | [_] => none
    | [r1, r2] =>
      match r1, r2 with
      | some x, some y => if x = y then some x else none
      | some x, none => some x
      | none, some y => some y
      | none, none => none
    | r1 :: r2 :: r3 :: _ =>
      match r1, r2 with
      | some x, some y => if x = y then some x else
          (match r3 with | some z => some z | none => some x)
      | some x, none => some x
      | none, some y => some y
      | none, none => (match r3 with | some z => some z | none => some a)
  | _ => none

/-- Embedding of a JavaScript object literal with two computed keys:
when both keys coincide the later entry wins; absent keys read the
default. -/
def rec2 {α : Type} (d : α) (k1 : UserId) (v1 : α) (k2 : UserId) (v2 : α) : UserId → α :=
  fun u => if u = k2 then v2 else if u = k1 then v1 else d

/-- Embedding of a JavaScript spread update setting one key. -/
def rupd {α : Type} (f : UserId → α) (k : UserId) (v : α) : UserId → α :=
  fun u => if u = k then v else f u

/-- Embedding of the JavaScript or-else on a possibly missing user id:
undefined and the falsy id 0 both fall through to the fallback. -/
def jsOrId (x : Option UserId) (y : UserId) : UserId :=
  match x with
  | none => y
  | some v => if v = 0 then y else v

/-- MAX_POINTS as defined at the top of Game.ts: the match target.
The source sets it to 5. -/
def MAX_POINTS : Int := 5

inductive EnvidoCall where
  | ENVIDO
  | REAL_ENVIDO
  | FALTA_ENVIDO
deriving DecidableEq

inductive TrucoCall where
  | TRUCO
  | RETRUCO
  | VALE_CUATRO
deriving DecidableEq

/-- The Envido record of GameState (Game.ts). -/
structure Envido where
  calls : List EnvidoCall
  firstCaller : Option UserId
  lastCaller : Option UserId
  acceptedBy : Option UserId
  accepted : Option Bool
  waitingResponse : Bool
  winner : Option UserId
  playersPoints : Option (UserId → Int)

inductive GameEventType where
  | START
  | ENVIDO_CALL
  | ENVIDO_ACCEPTED
  | ENVIDO_DECLINED
  | TRUCO_CALL
  | TRUCO_ACCEPT
  | TRUCO_DECLINE
  | THROW_CARD
  | TO_DECK
  | ROUND_RESULT
  | NEXT_ROUND
  | RESULT
deriving DecidableEq

/-- The GameEvent tagged union of Game.ts, one constructor per
variant with its payload. -/
inductive GameEvent where
  | start
  | envidoCall (call : EnvidoCall) (caller : UserId)
  | envidoAccepted (acceptedBy : UserId) (points : UserId → Int)
  | envidoDeclined (declinedBy : UserId) (points : UserId → Int)
  | trucoCall (call : TrucoCall) (caller : UserId)
  | trucoAccept (acceptedBy : UserId) (call : TrucoCall)
  | trucoDecline (declinedBy : UserId) (call : TrucoCall)
  | throwCard (playerId : UserId) (card : Card) (nextPlayerId : UserId)
  | toDeck (playerId : UserId)
  | roundResult (winner : UserId) (points : UserId → Int)
  | nextRound (cards : UserId → List Card) (round : Nat) (nextPlayerId : UserId)
  | result (winner : UserId) (points : UserId → Int)

/-- The discriminator of a GameEvent. -/
def GameEvent.type : GameEvent → GameEventType
  | .start => .START
  | .envidoCall _ _ => .ENVIDO_CALL
  | .envidoAccepted _ _ => .ENVIDO_ACCEPTED
  | .envidoDeclined _ _ => .ENVIDO_DECLINED
  | .trucoCall _ _ => .TRUCO_CALL
  | .trucoAccept _ _ => .TRUCO_ACCEPT
  | .trucoDecline _ _ => .TRUCO_DECLINE
  | .throwCard _ _ _ => .THROW_CARD
  | .toDeck _ => .TO_DECK
  | .roundResult _ _ => .ROUND_RESULT
  | .nextRound _ _ _ => .NEXT_ROUND
  | .result _ _ => .RESULT

/-- The GameState record of Game.ts.  The two record-typed fields are
total functions with the absent-key defaults made explicit (empty
list of cards, 0 points). -/
structure GameState where
  started : Bool
  firstPlayer : UserId
  playerTurn : UserId
  winner : Option UserId
  round : Nat
  cards : UserId → List Card
  thrownCards : UserId → List Card
  trucoPoints : Int
  points : UserId → Int
  envido : Envido

/-- The Game aggregate of Game.ts. -/
structure Game where
  id : Nat
  name : String
  players : List SafeUser
  state : GameState
  events : List GameEvent

/-- The closed enumeration of domain errors thrown by the Game
methods (thrown as error strings in the source). -/
inductive GameError where
  | NotYourTurn
  | WaitingResponse
  | InvalidCard
  | InvalidStep
  | InvalidEnvidoCall
  | InvalidTrucoCall
  | NotWaitingResponse
deriving DecidableEq

/-- Boolean success test for an embedded transition result. -/
def exOk : Except GameError Game → Bool
  | .ok _ => true
  | .error _ => false

/-- Access to players[0]; the source indexes the players array
directly and assumes it is populated, so the empty case returns a
junk user that no theorem relies on. -/
def Game.player0 (g : Game) : SafeUser := g.players.getD 0 ⟨0, ""⟩

/-- Access to players[1], with the same unreachable-default caveat
as player0. -/
def Game.player1 (g : Game) : SafeUser := g.players.getD 1 ⟨0, ""⟩

/-- The id of the first listed player different from userId:
players.find of the source.  The not-found default is unreachable in
two-player games. -/
def Game.otherPlayerId (g : Game) (userId : UserId) : UserId :=
  ((g.players.find? (fun p => p.id != userId)).map SafeUser.id).getD 0

def Game.getPlayersIds (g : Game) : List UserId := g.players.map SafeUser.id

/-- Game.new of the source: a fresh single-player game. -/
def Game.new (user : SafeUser) : Game :=
  { id := 0
    name := user.username
    players := [user]
    events := []
    state :=
      { started := false
        firstPlayer := user.id
        playerTurn := user.id
        winner := none
        round := 1
        cards := fun _ => []
        thrownCards := fun _ => []
        trucoPoints := 1
        points := fun _ => 0
        envido :=
          { calls := []
            firstCaller := none
            lastCaller := none
            acceptedBy := none
            accepted := none
            winner := none
            playersPoints := none
            waitingResponse := false } } }

def Game.canJoin (g : Game) (userId : UserId) : Bool :=
  !g.state.started && g.players.length == 1 && (g.player0).id != userId

def Game.hasUser (g : Game) (userId : UserId) : Bool :=
  g.players.any (fun p => p.id == userId)

/-- Game.join of the source: appends the second player.  No event is
appended. -/
def Game.join (g : Game) (user : SafeUser) : Game :=
  { g with players := g.players ++ [user] }

def buildThrowCardEvent (playerId : UserId) (card : Card) (nextPlayerId : UserId) : GameEvent :=
  GameEvent.throwCard playerId card nextPlayerId

def buildRoundResultEvent (winner : UserId) (points : UserId → Int) : GameEvent :=
  GameEvent.roundResult winner points

def buildResultEvent (winner : UserId) (points : UserId → Int) : GameEvent :=
  GameEvent.result winner points

def buildNextRoundEvent (round : Nat) (cards : UserId → List Card) (nextPlayerId : UserId) : GameEvent :=
  GameEvent.nextRound cards round nextPlayerId

/-- Game.start of the source.  generatePlayersCards of the missing
Cards module is non-deterministic; per the design notes of the
specification the dealt hands are injected as the deal parameter. -/
def Game.start (g : Game) (deal : List Card × List Card) : Game :=
  let p1 := (g.player0).id
  let p2 := (g.player1).id
  let points := rec2 0 p1 0 p2 0
  let cards := rec2 [] p1 deal.1 p2 deal.2
  { g with
    events := g.events ++ [GameEvent.start, buildNextRoundEvent g.state.round cards g.state.firstPlayer]
    state := { g.state with started := true, cards := cards, points := points } }

def Game.isWaitingResponse (g : Game) : Bool :=
  g.state.envido.waitingResponse

/-- Game.step of the source: the one-based index of the current
trick, from the shorter of the two thrown-card lists. -/
def Game.step (g : Game) : Nat :=
  let t1 := g.state.thrownCards (g.player0).id
  let t2 := g.state.thrownCards (g.player1).id
  let thrown := if t1.length < t2.length then t1 else t2
  thrown.length + 1

/-- Game.setNextTurnPlayer of the source.  When both players have
thrown the same number of cards the last thrown cards are compared;
the source indexes position length - 1 without a guard, so the
unreachable empty case reads a rank-0 junk card. -/
def Game.setNextTurnPlayer (g : Game) : Game :=
  let t1 := g.state.thrownCards (g.player0).id
  let t2 := g.state.thrownCards (g.player1).id
  if t1.length = t2.length then
    let v1 := getCardValue (t1.getLastD ⟨Suit.espada, 0⟩)
    let v2 := getCardValue (t2.getLastD ⟨Suit.espada, 0⟩)
    { g with state := { g.state with playerTurn :=
        if v1 = v2 then
          (if g.state.playerTurn = (g.player0).id then (g.player1).id else (g.player0).id)
        else if v1 > v2 then (g.player0).id else (g.player1).id } }
  else
    { g with state := { g.state with playerTurn :=
        if t1.length < t2.length then (g.player0).id else (g.player1).id } }

/-- Game.withWinnerResult of the source: when some player has reached
MAX_POINTS, set the winner and append a RESULT event, else return
none.  The winner selection reproduces the source verbatim: the
condition compares the points of players[0] with the points of
players[0] (a self-comparison), so it is always true and players[0]
is always selected. -/
def Game.withWinnerResult (g : Game) : Option Game :=
  let p1 := (g.player0).id
  let p2 := (g.player1).id
  if g.state.points p1 ≥ MAX_POINTS ∨ g.state.points p2 ≥ MAX_POINTS then
    let winner := if g.state.points p1 ≥ g.state.points p1 then p1 else p2
    some { g with
      events := g.events ++ [buildResultEvent winner g.state.points]
      state := { g.state with winner := some winner } }
  else
    none

/-- Game.getNewEvents of the source: the suffix of the event log past
the length of the log of the old game. -/
def Game.getNewEvents (g : Game) (oldGame : Game) : List GameEvent :=
  g.events.drop oldGame.events.length

/-- Game.withNextRoundOrWin of the source: finish the match if
decided, otherwise deal a new round (fresh hands injected as the
deal parameter), alternate the mano and reset the round-local
state. -/
def Game.withNextRoundOrWin (g : Game) (deal : List Card × List Card) : Game :=
  match g.withWinnerResult with
  | some game => game
  | none =>
    let p1 := (g.player0).id
    let p2 := (g.player1).id
    let cards := rec2 [] p1 deal.1 p2 deal.2
    let round := g.state.round + 1
    let firstPlayer := if g.state.firstPlayer = p1 then p2 else p1
    { g with
      events := g.events ++ [buildNextRoundEvent round cards firstPlayer]
      state :=
        { started := true
          winner := none
          round := round
          cards := cards
          firstPlayer := firstPlayer
          thrownCards := fun _ => []
          playerTurn := firstPlayer
          trucoPoints := 1
          points := g.state.points
          envido :=
            { calls := []
              firstCaller := none
              lastCaller := none
              acceptedBy := none
              accepted := none
              winner := none
              playersPoints := none
              waitingResponse := false } } }

/-- Game.setRoundWinner of the source: award trucoPoints to the round
winner, append a ROUND_RESULT event, then continue with
withNextRoundOrWin. -/
def Game.setRoundWinner (g : Game) (winner : UserId) (deal : List Card × List Card) : Game :=
  let points := rupd g.state.points winner (g.state.points winner + g.state.trucoPoints)
  ({ g with
      events := g.events ++ [buildRoundResultEvent winner points]
      state := { g.state with points := points } }).withNextRoundOrWin deal

/-- Game.withRoundWinnerValidation of the source: resolve the round
when getRoundWinner reports a decision. -/
def Game.withRoundWinnerValidation (g : Game) (deal : List Card × List Card) : Game :=
  match getRoundWinner g.getPlayersIds g.state.thrownCards with
  | none => g
  | some winner => g.setRoundWinner winner deal

/-- Game.throwCard of the source: turn and response preconditions,
membership of the card in the hand (includes, structural equality on
cards), then move the card to the thrown list, advance the turn,
append a THROW_CARD event and attempt round resolution. -/
def Game.throwCard (g : Game) (userId : UserId) (card : Card) (deal : List Card × List Card) :
    Except GameError Game :=
  if g.state.playerTurn ≠ userId then .error .NotYourTurn
  else if g.isWaitingResponse then .error .WaitingResponse
  else if !((g.state.cards userId).contains card) then .error .InvalidCard
  else
    let updatedGame :=
      ({ g with state :=
          { g.state with
            cards := rupd g.state.cards userId ((g.state.cards userId).filter (fun c => c != card))
            thrownCards := rupd g.state.thrownCards userId (g.state.thrownCards userId ++ [card]) }
        }).setNextTurnPlayer
    let throwCardEvent := buildThrowCardEvent userId card updatedGame.state.playerTurn
    .ok (({ updatedGame with events := g.events ++ [throwCardEvent] }).withRoundWinnerValidation deal)

/-- Game.isValidEnvidoCall of the source: legality of an envido
escalation against the chain of calls already made this round. -/
def Game.isValidEnvidoCall (g : Game) (call : EnvidoCall) : Bool :=
  let calls := g.state.envido.calls
  match calls.getLast? with
  | none => true
  | some lastCall =>
    match lastCall with
    | .ENVIDO =>
        (call == .ENVIDO && calls.length == 1)
          || call == .REAL_ENVIDO
          || call == .FALTA_ENVIDO
    | .REAL_ENVIDO => call == .FALTA_ENVIDO
    | .FALTA_ENVIDO => false

/-- Game.envido of the source: turn precondition, step 1 only,
escalation validity; then append the call, reset the response
fields, flag waitingResponse and pass the turn to the opponent,
emitting an ENVIDO_CALL event.  The or-else on firstCaller is the
JavaScript truthiness test embedded by jsOrId. -/
def Game.envido (g : Game) (userId : UserId) (call : EnvidoCall) : Except GameError Game :=
  if g.state.playerTurn ≠ userId then .error .NotYourTurn
  else if g.step ≠ 1 then .error .InvalidStep
  else if !(g.isValidEnvidoCall call) then .error .InvalidEnvidoCall
  else
    let envido := g.state.envido
    let newEnvido : Envido :=
      { calls := envido.calls ++ [call]
        firstCaller := some (jsOrId envido.firstCaller userId)
        lastCaller := some userId
        acceptedBy := none
        accepted := none
        winner := none
        playersPoints := none
        waitingResponse := true }
    .ok { g with
      events := g.events ++ [GameEvent.envidoCall call userId]
      state := { g.state with envido := newEnvido, playerTurn := g.otherPlayerId userId } }

/-- Game.getEnvidoPoints of the source: total awarded for the envido
chain; ENVIDO adds 2, REAL_ENVIDO adds 3, FALTA_ENVIDO adds
MAX_POINTS when the loser is below 15 match points and 30 minus the
loser points otherwise. -/
def Game.getEnvidoPoints (g : Game) (winner : UserId) : Int :=
  g.state.envido.calls.foldl
    (fun points call =>
      match call with
      | .ENVIDO => points + 2
      | .REAL_ENVIDO => points + 3
      | .FALTA_ENVIDO =>
          let otherPoints := g.state.points (g.otherPlayerId winner)
          if otherPoints < 15 then points + MAX_POINTS else points + (30 - otherPoints))
    0

/-- Game.analyzeEnvido of the source: resolution of a pending envido.
Declined: the last caller wins one point per call in the chain.
Accepted: compare the envido values of both players over held plus
thrown cards, ties to the mano (firstPlayer); the winner receives
getEnvidoPoints.  The non-null assertion on lastCaller is the
unreachable default 0. -/
def Game.analyzeEnvido (g : Game) (userId : UserId) (accepted : Bool) :
    UserId × (UserId → Int) :=
  let envido := g.state.envido
  if !accepted then
    let lc := envido.lastCaller.getD 0
    (lc, rec2 0 lc (envido.calls.length : Int) userId 0)
  else
    let p1 := (g.player0).id
    let p2 := (g.player1).id
    let player1EnvidoPoints := getEnvidoCardsValue (g.state.cards p1 ++ g.state.thrownCards p1)
    let player2EnvidoPoints := getEnvidoCardsValue (g.state.cards p2 ++ g.state.thrownCards p2)
    let winner :=
      if player1EnvidoPoints = player2EnvidoPoints then g.state.firstPlayer
      else if player1EnvidoPoints > player2EnvidoPoints then p1
      else p2
    (winner, rec2 0 winner (g.getEnvidoPoints winner) (g.otherPlayerId winner) 0)

/-- Game.answerEnvido of the source: turn precondition, step 1 only,
a response must be pending; resolve via analyzeEnvido, add the
awarded points, record the resolution, return the turn to the first
caller, emit ENVIDO_ACCEPTED or ENVIDO_DECLINED, and finish the
match via withWinnerResult when it is decided. -/
def Game.answerEnvido (g : Game) (userId : UserId) (accepted : Bool) : Except GameError Game :=
  if g.state.playerTurn ≠ userId then .error .NotYourTurn
  else if g.step ≠ 1 then .error .InvalidStep
  else if !g.state.envido.waitingResponse then .error .NotWaitingResponse
  else
    let envido := g.state.envido
    let res := g.analyzeEnvido userId accepted
    let newEnvido : Envido :=
      { calls := envido.calls
        firstCaller := envido.firstCaller
        lastCaller := envido.lastCaller
        acceptedBy := some userId
        accepted := some accepted
        winner := some res.1
        playersPoints := some res.2
        waitingResponse := false }
    let p1 := (g.player0).id
    let p2 := (g.player1).id
    let points := rec2 0 p1 (g.state.points p1 + res.2 p1) p2 (g.state.points p2 + res.2 p2)
    let envidoEvent :=
      if accepted then GameEvent.envidoAccepted userId points
      else GameEvent.envidoDeclined userId points
    let game :=
      { g with
        events := g.events ++ [envidoEvent]
        state :=
          { g.state with
            envido := newEnvido
            playerTurn := newEnvido.firstCaller.getD 0
            points := points } }
    .ok ((game.withWinnerResult).getD game)

def buildToDeckEvent (playerId : UserId) : GameEvent := GameEvent.toDeck playerId

/-- Game.goToDeck of the source: turn and response preconditions;
the opponent wins the round at the current trucoPoints after a
TO_DECK event. -/
def Game.goToDeck (g : Game) (userId : UserId) (deal : List Card × List Card) :
    Except GameError Game :=
  if g.state.playerTurn ≠ userId then .error .NotYourTurn
  else if g.isWaitingResponse then .error .WaitingResponse
  else
    let winner := g.otherPlayerId userId
    .ok (({ g with events := g.events ++ [buildToDeckEvent userId] }).setRoundWinner winner deal)

/-- Modelled from the spec: the TrucoNegotiation record of the data
model section.  The truco call and answer methods are absent from
the available source (only trucoPoints lives in GameState), so the
negotiation record is carried beside the Game. -/
structure TrucoState where
  call : Option TrucoCall
  caller : Option UserId
  waitingResponse : Bool

/-- Modelled from the spec: the point value of an accepted truco
call (TRUCO 2, RETRUCO 3, VALE_CUATRO 4). -/
def trucoCallValue : TrucoCall → Int
  | .TRUCO => 2
  | .RETRUCO => 3
  | .VALE_CUATRO => 4

/-- Modelled from the spec: legality of a truco escalation, strictly
increasing with each level at most once. -/
def isValidTrucoCall (t : TrucoState) (call : TrucoCall) : Bool :=
  match t.call, call with
  | none, .TRUCO => true
  | some .TRUCO, .RETRUCO => true
  | some .RETRUCO, .VALE_CUATRO => true
  | _, _ => false

/-- Modelled from the spec: callTruco, absent from the available
source.  Turn and response preconditions, escalation validity; the
caller is recorded, waitingResponse is raised, the turn passes to
the opponent and a TRUCO_CALL event is emitted. -/
def callTruco (g : Game) (t : TrucoState) (userId : UserId) (call : TrucoCall) :
    Except GameError (Game × TrucoState) :=
  if g.state.playerTurn ≠ userId then .error .NotYourTurn
  else if g.isWaitingResponse || t.waitingResponse then .error .WaitingResponse
  else if !(isValidTrucoCall t call) then .error .InvalidTrucoCall
  else
    .ok
      ({ g with
          events := g.events ++ [GameEvent.trucoCall call userId]
          state := { g.state with playerTurn := g.otherPlayerId userId } },
       { call := some call, caller := some userId, waitingResponse := true })

/-- Modelled from the spec: answerTruco, absent from the available
source.  Turn precondition and a pending call required.  On accept,
trucoPoints becomes the value of the accepted call, waitingResponse
is cleared, the turn returns to the caller (who was about to play
when the call was made) and TRUCO_ACCEPT is emitted.  On decline the
caller wins the round at the current trucoPoints after a
TRUCO_DECLINE event. -/
def answerTruco (g : Game) (t : TrucoState) (userId : UserId) (accepted : Bool)
    (deal : List Card × List Card) : Except GameError (Game × TrucoState) :=
  if g.state.playerTurn ≠ userId then .error .NotYourTurn
  else if !t.waitingResponse then .error .NotWaitingResponse
  else
    let c := t.call.getD .TRUCO
    if accepted then
      .ok
        ({ g with
            events := g.events ++ [GameEvent.trucoAccept userId c]
            state := { g.state with trucoPoints := trucoCallValue c, playerTurn := t.caller.getD 0 } },
         { t with waitingResponse := false })
    else
      let winner := g.otherPlayerId userId
      .ok
        ((({ g with events := g.events ++ [GameEvent.trucoDecline userId c] }).setRoundWinner winner deal),
         { t with waitingResponse := false })

/-- The per-call envido award of the getEnvidoPoints loop body, as a
standalone function of the call and the match points of the loser at
resolution time. -/
def envidoCallContribution (call : EnvidoCall) (loserPoints : Int) : Int :=
  match call with
  | .ENVIDO => 2
  | .REAL_ENVIDO => 3
  | .FALTA_ENVIDO => if loserPoints < 15 then MAX_POINTS else 30 - loserPoints

/-- Fixture: first user. -/
def uA : SafeUser := ⟨1, "a"⟩

/-- Fixture: second user. -/
def uB : SafeUser := ⟨2, "b"⟩

/-- Fixture: a two-player game right after join, not started. -/
def gBase : Game := (Game.new uA).join uB

/-- Fixture: an arbitrary injected deal. -/
def dealX : List Card × List Card :=
  ([⟨Suit.copa, 10⟩, ⟨Suit.copa, 11⟩, ⟨Suit.copa, 12⟩],
   [⟨Suit.basto, 10⟩, ⟨Suit.basto, 11⟩, ⟨Suit.basto, 12⟩])

/-- Fixture: player 2 (the mano) has reached MAX_POINTS with 5 points,
player 1 has 0. -/
def gC1 : Game :=
  { gBase with state :=
      { gBase.state with
        points := rec2 0 1 0 2 5
        firstPlayer := 2 } }

/-- Fixture: player 1 has reached MAX_POINTS with 5 points. -/
def gC2a : Game :=
  { gBase with state := { gBase.state with points := rec2 0 1 5 2 0 } }

/-- Fixture: a finished game (winner already set, 5 points) where
player 1 still holds a card and has the turn. -/
def gFin : Game :=
  { gBase with state :=
      { gBase.state with
        started := true
        winner := some 1
        playerTurn := 1
        points := rec2 0 1 5 2 0
        cards := rec2 [] 1 [⟨Suit.espada, 1⟩] 2 [⟨Suit.copa, 4⟩] } }

/-- Fixture: a falta envido resolved against a loser holding 14 match
points. -/
def gC4 : Game :=
  { gBase with state :=
      { gBase.state with
        points := rec2 0 1 0 2 14
        envido := { gBase.state.envido with calls := [.FALTA_ENVIDO] } } }

/-- Fixture: trick 1 with exactly one card thrown (by player 1), the
turn on player 2 and no envido called yet. -/
def gC5 : Game :=
  { gBase with state :=
      { gBase.state with
        started := true
        playerTurn := 2
        cards := rec2 [] 1 [⟨Suit.oro, 4⟩, ⟨Suit.oro, 5⟩]
                         2 [⟨Suit.copa, 4⟩, ⟨Suit.copa, 5⟩, ⟨Suit.copa, 6⟩]
        thrownCards := rec2 [] 1 [⟨Suit.espada, 1⟩] 2 [] } }

/-- Fixture: the gC5 position with a pending ENVIDO called by player 2
awaiting the answer of player 1. -/
def gC6 : Game :=
  { gC5 with state :=
      { gC5.state with
        playerTurn := 1
        envido := { gC5.state.envido with
                    calls := [.ENVIDO]
                    firstCaller := some 2
                    lastCaller := some 2
                    waitingResponse := true } } }

/-- Fixture: player 1 won trick 1 outright and is about to win trick 2
with the last held card, deciding the round. -/
def gC8 : Game :=
  { gBase with state :=
      { gBase.state with
        started := true
        playerTurn := 1
        cards := rec2 [] 1 [⟨Suit.basto, 1⟩] 2 [⟨Suit.copa, 5⟩]
        thrownCards := rec2 [] 1 [⟨Suit.espada, 1⟩] 2 [⟨Suit.basto, 4⟩, ⟨Suit.oro, 4⟩] } }

/-- Fixture: a running round with no card thrown yet, the turn on
player 1. -/
def gT : Game :=
  { gBase with state :=
      { gBase.state with
        started := true
        playerTurn := 1
        cards := rec2 [] 1 [⟨Suit.basto, 1⟩, ⟨Suit.oro, 4⟩] 2 [⟨Suit.copa, 5⟩]
        thrownCards := fun _ => [] } }

/-- Fixture: the initial truco negotiation state (no call pending). -/
def t0X : TrucoState := ⟨none, none, false⟩

theorem Game.player0_eq {g : Game} {a b : SafeUser} (hp : g.players = [a, b]) :
    g.player0 = a := by
  simp [Game.player0, hp]

theorem Game.player1_eq {g : Game} {a b : SafeUser} (hp : g.players = [a, b]) :
    g.player1 = b := by
  simp [Game.player1, hp]

theorem Game.otherPlayerId_fst {g : Game} {a b : SafeUser} (hp : g.players = [a, b])
    (h : a.id ≠ b.id) : g.otherPlayerId b.id = a.id := by
  have ha : (a.id == b.id) = false := beq_eq_false_iff_ne.mpr h
  simp [Game.otherPlayerId, hp, List.find?, bne, ha]

theorem Game.otherPlayerId_snd {g : Game} {a b : SafeUser} (hp : g.players = [a, b])
    (h : a.id ≠ b.id) : g.otherPlayerId a.id = b.id := by
  have hb : (b.id == a.id) = false := beq_eq_false_iff_ne.mpr (Ne.symm h)
  simp [Game.otherPlayerId, hp, List.find?, bne, hb]

theorem Game.setNextTurnPlayer_parts (g : Game) :
    g.setNextTurnPlayer.events = g.events ∧
    g.setNextTurnPlayer.players = g.players ∧
    g.setNextTurnPlayer.state.cards = g.state.cards ∧
    g.setNextTurnPlayer.state.thrownCards = g.state.thrownCards ∧
    g.setNextTurnPlayer.state.envido = g.state.envido ∧
    g.setNextTurnPlayer.state.points = g.state.points := by
  unfold Game.setNextTurnPlayer
  dsimp only
  refine ⟨?_, ?_, ?_, ?_, ?_, ?_⟩ <;> (split <;> rfl)

theorem Game.withWinnerResult_some {g g' : Game} (h : g.withWinnerResult = some g') :
    (∃ e, g'.events = g.events ++ [e]) ∧
    g'.players = g.players ∧
    g'.state.playerTurn = g.state.playerTurn ∧
    g'.state.points = g.state.points ∧
    g'.state.envido = g.state.envido := by
  unfold Game.withWinnerResult at h
  dsimp only at h
  split at h
  · cases h
    exact ⟨⟨_, rfl⟩, rfl, rfl, rfl, rfl⟩
  · cases h

theorem Game.withWinnerResult_getD_parts (g : Game) :
    (∃ t, ((g.withWinnerResult).getD g).events = g.events ++ t) ∧
    ((g.withWinnerResult).getD g).players = g.players ∧
    ((g.withWinnerResult).getD g).state.playerTurn = g.state.playerTurn ∧
    ((g.withWinnerResult).getD g).state.points = g.state.points ∧
    ((g.withWinnerResult).getD g).state.envido = g.state.envido := by
  cases h : g.withWinnerResult with
  | none => exact ⟨⟨[], by simp⟩, rfl, rfl, rfl, rfl⟩
  | some g' =>
    obtain ⟨⟨e, he⟩, hpl, hturn, hpts, henv⟩ := Game.withWinnerResult_some h
    exact ⟨⟨[e], by simpa using he⟩, by simpa using hpl, by simpa using hturn,
      by simpa using hpts, by simpa using henv⟩

theorem Game.withNextRoundOrWin_events (g : Game) (deal : List Card × List Card) :
    ∃ e, (g.withNextRoundOrWin deal).events = g.events ++ [e] := by
  unfold Game.withNextRoundOrWin
  cases h : g.withWinnerResult with
  | none => exact ⟨_, rfl⟩
  | some g' => exact (Game.withWinnerResult_some h).1

theorem Game.setRoundWinner_events (g : Game) (winner : UserId) (deal : List Card × List Card) :
    ∃ e e', (g.setRoundWinner winner deal).events = g.events ++ [e, e'] := by
  unfold Game.setRoundWinner
  dsimp only
  obtain ⟨e, he⟩ := Game.withNextRoundOrWin_events
    { g with
      events := (g.events ++
        [buildRoundResultEvent winner (rupd g.state.points winner (g.state.points winner + g.state.trucoPoints))])
      state := ({ g.state with points := rupd g.state.points winner (g.state.points winner + g.state.trucoPoints) }) }
    deal
  exact ⟨buildRoundResultEvent winner (rupd g.state.points winner (g.state.points winner + g.state.trucoPoints)), e,
    he.trans (by simp)⟩

theorem Game.withRoundWinnerValidation_events (g : Game) (deal : List Card × List Card) :
    ∃ t, (g.withRoundWinnerValidation deal).events = g.events ++ t := by
  unfold Game.withRoundWinnerValidation
  cases h : getRoundWinner g.getPlayersIds g.state.thrownCards with
  | none => exact ⟨[], by simp⟩
  | some w =>
    obtain ⟨e, e', he⟩ := Game.setRoundWinner_events g w deal
    exact ⟨[e, e'], he⟩

theorem get_append_len {α : Type} (l t : List α) (e : α) :
    (l ++ e :: t).get? l.length = some e := by
  induction l with
  | nil => rfl
  | cons x xs ih => simpa using ih

theorem Game.setNextTurnPlayer_events (g : Game) : g.setNextTurnPlayer.events = g.events :=
  (Game.setNextTurnPlayer_parts g).1

theorem Game.setNextTurnPlayer_players (g : Game) : g.setNextTurnPlayer.players = g.players :=
  (Game.setNextTurnPlayer_parts g).2.1

theorem Game.setNextTurnPlayer_cards (g : Game) :
    g.setNextTurnPlayer.state.cards = g.state.cards :=
  (Game.setNextTurnPlayer_parts g).2.2.1

theorem Game.setNextTurnPlayer_thrownCards (g : Game) :
    g.setNextTurnPlayer.state.thrownCards = g.state.thrownCards :=
  (Game.setNextTurnPlayer_parts g).2.2.2.1

theorem Game.withRoundWinnerValidation_none (gMid : Game) (deal : List Card × List Card)
    (h : getRoundWinner gMid.getPlayersIds gMid.state.thrownCards = none) :
    gMid.withRoundWinnerValidation deal = gMid := by
  unfold Game.withRoundWinnerValidation
  rw [h]

theorem Game.withRoundWinnerValidation_tail (gMid gOld : Game) (e : GameEvent)
    (deal : List Card × List Card) (hev : gMid.events = gOld.events ++ [e]) :
    ∃ t, (gMid.withRoundWinnerValidation deal).events = gOld.events ++ t ∧ t ≠ [] := by
  obtain ⟨t, ht⟩ := Game.withRoundWinnerValidation_events gMid deal
  refine ⟨e :: t, ?_, by simp⟩
  rw [ht, hev, List.append_assoc]
  rfl

theorem Game.withRoundWinnerValidation_get_type (gMid gOld : Game) (e : GameEvent)
    (deal : List Card × List Card) (hev : gMid.events = gOld.events ++ [e]) :
    ((gMid.withRoundWinnerValidation deal).events.get? gOld.events.length).map GameEvent.type =
      some e.type := by
  obtain ⟨t, ht⟩ := Game.withRoundWinnerValidation_events gMid deal
  rw [ht, hev, List.append_assoc]
  rw [show [e] ++ t = e :: t from rfl, get_append_len]
  rfl

theorem Game.withWinnerResult_getD_tail (gMid gOld : Game) (e : GameEvent)
    (hev : gMid.events = gOld.events ++ [e]) :
    ∃ t, ((gMid.withWinnerResult).getD gMid).events = gOld.events ++ t ∧ t ≠ [] := by
  obtain ⟨⟨t, ht⟩, -, -, -, -⟩ := Game.withWinnerResult_getD_parts gMid
  refine ⟨e :: t, ?_, by simp⟩
  rw [ht, hev, List.append_assoc]
  rfl

theorem Game.withWinnerResult_getD_get_type (gMid gOld : Game) (e : GameEvent)
    (hev : gMid.events = gOld.events ++ [e]) :
    (((gMid.withWinnerResult).getD gMid).events.get? gOld.events.length).map GameEvent.type =
      some e.type := by
  obtain ⟨⟨t, ht⟩, -, -, -, -⟩ := Game.withWinnerResult_getD_parts gMid
  rw [ht, hev, List.append_assoc]
  rw [show [e] ++ t = e :: t from rfl, get_append_len]
  rfl

/-- C1: in the source, withWinnerResult does fire exactly when some
player has reached MAX_POINTS and does append a RESULT event, but the
winner selection compares the points of players[0] with themselves,
so players[0] is declared winner even when the other player has
strictly more points: in gC1 player 2 holds 5 points (MAX_POINTS
reached) against 0 for player 1, yet the returned winner is player 1.
The specification itself flags this self-comparison as a bug of the
reference implementation. -/
theorem C1_withWinnerResult_self_comparison_bug :
    gC1.state.points 2 = 5 ∧ gC1.state.points 1 = 0 ∧ MAX_POINTS = 5 ∧
    (gC1.withWinnerResult).map (fun g => g.state.winner) = some (some 1) ∧
    (gC1.withWinnerResult).map (fun g => (g.events.get? gC1.events.length).map GameEvent.type) =
      some (some GameEventType.RESULT) := by
  refine ⟨rfl, rfl, rfl, rfl, rfl⟩

/-- C2: the match target MAX_POINTS of the source is 5, not 15; a
player holding 5 points already triggers withWinnerResult, and a
finished game (winner set) still accepts throwCard, because no Game
method checks state.winner and no GameFinished error exists in the
source. -/
theorem C2_max_points_is_5_and_no_finished_gate :
    MAX_POINTS = 5 ∧ MAX_POINTS ≠ 15 ∧
    ((gC2a.withWinnerResult).map (fun g => g.state.winner)).isSome = true ∧
    gFin.state.winner = some 1 ∧
    exOk (gFin.throwCard 1 ⟨Suit.espada, 1⟩ dealX) = true := by
  refine ⟨rfl, by decide, rfl, rfl, rfl⟩

/-- C4 counterexample: with the loser at 14 match points and a lone
FALTA_ENVIDO on the chain, the source awards MAX_POINTS = 5, not the
30 - 14 = 16 of the claim (nor 5 - 14 of the claimed formula). -/
theorem C4_falta_envido_at_14_counterexample :
    gC4.state.points 2 = 14 ∧ gC4.state.envido.calls = [EnvidoCall.FALTA_ENVIDO] ∧
    gC4.getEnvidoPoints 1 = 5 ∧ gC4.getEnvidoPoints 1 ≠ 30 - 14 ∧
    gC4.getEnvidoPoints 1 ≠ 5 - 14 := by
  refine ⟨rfl, rfl, by decide, by decide, by decide⟩

/-- C5 counterexample: in gC5 player 1 has already thrown a card in
trick 1 while player 2 has not, so step() is still 1 and the envido
call of player 2 succeeds, although the claim says any call after a
card was thrown in trick 1 fails with InvalidStep. -/
theorem C5_envido_after_one_throw_counterexample :
    gC5.state.thrownCards 1 = [⟨Suit.espada, 1⟩] ∧ gC5.state.thrownCards 2 = [] ∧
    gC5.step = 1 ∧ exOk (gC5.envido 2 EnvidoCall.ENVIDO) = true := by
  refine ⟨by decide, by decide, by decide, by decide⟩

/-- C9 counterexample: join returns a new Game but appends no event;
the event log of the joined fixture is as empty as before the join. -/
theorem C9_join_appends_no_event_counterexample :
    (Game.new uA).events = [] ∧ ((Game.new uA).join uB).events = [] ∧
    ((Game.new uA).join uB).players.length = 2 := by
  refine ⟨rfl, rfl, rfl⟩

/-- C7: isValidEnvidoCall accepts exactly the escalation chains of
the specification: any call on an empty chain; after a last ENVIDO, a
second ENVIDO only when it is the sole prior call, or REAL_ENVIDO or
FALTA_ENVIDO; after REAL_ENVIDO only FALTA_ENVIDO; after FALTA_ENVIDO
nothing. -/
theorem C7_isValidEnvidoCall_characterization (g : Game) (call : EnvidoCall) :
    g.isValidEnvidoCall call = true ↔
      (g.state.envido.calls = [] ∨
       (g.state.envido.calls.getLast? = some EnvidoCall.ENVIDO ∧
         ((call = EnvidoCall.ENVIDO ∧ g.state.envido.calls.length = 1) ∨
          call = EnvidoCall.REAL_ENVIDO ∨ call = EnvidoCall.FALTA_ENVIDO)) ∨
       (g.state.envido.calls.getLast? = some EnvidoCall.REAL_ENVIDO ∧
         call = EnvidoCall.FALTA_ENVIDO)) := by
  unfold Game.isValidEnvidoCall
  cases h : g.state.envido.calls.getLast? with
  | none =>
    have : g.state.envido.calls = [] := by
      cases hc : g.state.envido.calls with
      | nil => rfl
      | cons x xs => rw [hc] at h; simp [List.getLast?_concat] at h
    simp [h, this]
  | some lastCall =>
    have hne : g.state.envido.calls ≠ [] := by
      intro hc; rw [hc] at h; cases h
    cases lastCall <;> cases call <;> simp [h, hne]

theorem getEnvidoPoints_foldl_sum (g : Game) (winner : UserId) (l : List EnvidoCall) (acc : Int) :
    l.foldl
      (fun points call =>
        match call with
        | .ENVIDO => points + 2
        | .REAL_ENVIDO => points + 3
        | .FALTA_ENVIDO =>
            let otherPoints := g.state.points (g.otherPlayerId winner)
            if otherPoints < 15 then points + MAX_POINTS else points + (30 - otherPoints))
      acc
    = acc + (l.map (fun c => envidoCallContribution c (g.state.points (g.otherPlayerId winner)))).sum := by
  induction l generalizing acc with
  | nil => simp
  | cons c rest ih =>
    cases c <;>
      simp only [List.foldl_cons, List.map_cons, List.sum_cons, envidoCallContribution, ih] <;>
      (try split) <;> ring

/-- C4 amended: for every game and winner, getEnvidoPoints is the sum
over the envido chain of: 2 for ENVIDO, 3 for REAL_ENVIDO, and for
FALTA_ENVIDO the flat MAX_POINTS = 5 when the loser holds fewer than
15 match points at resolution time, else 30 minus the loser points. -/
theorem C4_getEnvidoPoints_is_contribution_sum (g : Game) (winner : UserId) :
    g.getEnvidoPoints winner =
      (g.state.envido.calls.map
        (fun c => envidoCallContribution c (g.state.points (g.otherPlayerId winner)))).sum := by
  unfold Game.getEnvidoPoints
  simpa using getEnvidoPoints_foldl_sum g winner g.state.envido.calls 0

/-- C5 amended: with the turn precondition satisfied, envido fails
with InvalidStep exactly when step() differs from 1, that is exactly
when both players have already thrown at least one card; a call at
step 1 with a card thrown by only one player passes the step gate. -/
theorem C5_envido_invalid_step_iff (g : Game) (userId : UserId) (call : EnvidoCall)
    (hturn : g.state.playerTurn = userId) :
    (g.envido userId call = .error .InvalidStep ↔ g.step ≠ 1) ∧
    (g.step ≠ 1 ↔
      (g.state.thrownCards (g.player0).id ≠ [] ∧ g.state.thrownCards (g.player1).id ≠ [])) := by
  constructor
  · unfold Game.envido
    rw [if_neg (not_not_intro hturn)]
    by_cases hs : g.step = 1
    · rw [if_neg (not_not_intro hs)]
      by_cases hv : g.isValidEnvidoCall call
      · simp [hv, hs]
      · simp [hv, hs]
    · rw [if_pos hs]
      simp [hs]
  · unfold Game.step
    dsimp only
    simp only [Ne, ← List.length_eq_zero]
    split <;> omega

theorem C5_envido_invalid_step_iff_witness :
    (gC5.envido 2 EnvidoCall.ENVIDO = .error .InvalidStep ↔ gC5.step ≠ 1) ∧
    (gC5.step ≠ 1 ↔
      (gC5.state.thrownCards (gC5.player0).id ≠ [] ∧
       gC5.state.thrownCards (gC5.player1).id ≠ [])) :=
  C5_envido_invalid_step_iff gC5 2 EnvidoCall.ENVIDO rfl

/-- C10: while an envido response is pending, the player to act can
escalate with a further envido call: the envido transition never
fails with WaitingResponse; on a legal escalation the call is
appended to the chain, the resolution fields reset to undefined,
lastCaller becomes the escalating player, waitingResponse stays true
and the turn passes to the opponent. -/
theorem C10_envido_escalation (g : Game) (a b : SafeUser) (userId : UserId) (call : EnvidoCall)
    (hp : g.players = [a, b]) (hne : a.id ≠ b.id)
    (hwait : g.state.envido.waitingResponse = true)
    (hturn : g.state.playerTurn = userId)
    (hstep : g.step = 1)
    (hvalid : g.isValidEnvidoCall call = true)
    (huser : userId = a.id ∨ userId = b.id) :
    (∀ (g0 : Game) (u : UserId) (c : EnvidoCall), g0.envido u c ≠ .error .WaitingResponse) ∧
    (∃ g', g.envido userId call = .ok g' ∧
      g'.state.envido.calls = g.state.envido.calls ++ [call] ∧
      g'.state.envido.lastCaller = some userId ∧
      g'.state.envido.acceptedBy = none ∧
      g'.state.envido.accepted = none ∧
      g'.state.envido.winner = none ∧
      g'.state.envido.playersPoints = none ∧
      g'.state.envido.waitingResponse = true ∧
      g'.state.playerTurn = (if userId = a.id then b.id else a.id)) := by
  constructor
  · intro g0 u c
    unfold Game.envido
    split
    · simp
    · split
      · simp
      · split
        · simp
        · simp
  · unfold Game.envido
    rw [if_neg (not_not_intro hturn), if_neg (not_not_intro hstep),
      if_neg (by simp [hvalid])]
    refine ⟨_, rfl, rfl, rfl, rfl, rfl, rfl, rfl, rfl, ?_⟩
    rcases huser with h | h
    · subst h
      rw [Game.otherPlayerId_snd hp hne, if_pos rfl]
    · subst h
      rw [Game.otherPlayerId_fst hp hne, if_neg (Ne.symm hne)]

theorem C10_envido_escalation_witness :
    ∃ g', gC6.envido 1 EnvidoCall.REAL_ENVIDO = .ok g' ∧
      g'.state.envido.calls = [EnvidoCall.ENVIDO, EnvidoCall.REAL_ENVIDO] ∧
      g'.state.envido.waitingResponse = true ∧ g'.state.playerTurn = 2 := by
  obtain ⟨-, g', hok, hcalls, -, -, -, -, -, hwr, ht⟩ :=
    C10_envido_escalation gC6 uA uB 1 EnvidoCall.REAL_ENVIDO rfl (by decide) rfl rfl
      (by decide) (by decide) (Or.inl rfl)
  exact ⟨g', hok, by rw [hcalls]; rfl, hwr, by rw [ht]; rfl⟩

/-- C3: the truco sub-protocol (modelled from the spec, the methods
being absent from the available source): from a started game where
the caller has the turn and nothing is pending, calling truco and
having the opponent accept sets trucoPoints to the value of the
accepted call (TRUCO 2, RETRUCO 3, VALE_CUATRO 4), clears the truco
waitingResponse flag and returns the turn to the caller, who was
about to play before the call. -/
theorem C3_truco_accept_flow (g : Game) (t0 : TrucoState) (a b : SafeUser) (c : TrucoCall)
    (deal : List Card × List Card)
    (hp : g.players = [a, b]) (hne : a.id ≠ b.id)
    (hstarted : g.state.started = true)
    (hturn : g.state.playerTurn = a.id)
    (hnowait : g.isWaitingResponse = false)
    (hnowait2 : t0.waitingResponse = false)
    (hvalid : isValidTrucoCall t0 c = true) :
    ∃ g1 t1 g2 t2,
      callTruco g t0 a.id c = .ok (g1, t1) ∧
      t1.waitingResponse = true ∧
      g1.state.playerTurn = b.id ∧
      answerTruco g1 t1 b.id true deal = .ok (g2, t2) ∧
      g2.state.trucoPoints = trucoCallValue c ∧
      t2.waitingResponse = false ∧
      g2.state.playerTurn = a.id := by
  have hob : g.otherPlayerId a.id = b.id := Game.otherPlayerId_snd hp hne
  have hcall : callTruco g t0 a.id c = .ok
      ({ g with
          events := g.events ++ [GameEvent.trucoCall c a.id]
          state := { g.state with playerTurn := b.id } },
       { call := some c, caller := some a.id, waitingResponse := true }) := by
    unfold callTruco
    rw [if_neg (not_not_intro hturn), if_neg (by simp [hnowait, hnowait2]),
      if_neg (by simp [hvalid]), hob]
  have hans : answerTruco
      ({ g with
          events := g.events ++ [GameEvent.trucoCall c a.id]
          state := { g.state with playerTurn := b.id } })
      ({ call := some c, caller := some a.id, waitingResponse := true })
      b.id true deal = .ok
      ({ g with
          events := (g.events ++ [GameEvent.trucoCall c a.id]) ++ [GameEvent.trucoAccept b.id c]
          state := { g.state with playerTurn := a.id, trucoPoints := trucoCallValue c } },
       { call := some c, caller := some a.id, waitingResponse := false }) := by
    unfold answerTruco
    dsimp only
    rw [if_neg (not_not_intro rfl)]
    rfl
  exact ⟨_, _, _, _, hcall, rfl, rfl, hans, rfl, rfl, rfl⟩

theorem C3_truco_accept_flow_witness :
    ∃ g1 t1 g2 t2,
      callTruco gT t0X uA.id TrucoCall.TRUCO = .ok (g1, t1) ∧
      t1.waitingResponse = true ∧
      g1.state.playerTurn = uB.id ∧
      answerTruco g1 t1 uB.id true dealX = .ok (g2, t2) ∧
      g2.state.trucoPoints = trucoCallValue TrucoCall.TRUCO ∧
      t2.waitingResponse = false ∧
      g2.state.playerTurn = uA.id :=
  C3_truco_accept_flow gT t0X uA uB TrucoCall.TRUCO dealX rfl (by decide) rfl rfl rfl rfl rfl

/-- C8 amended: throwCard fails with NotYourTurn when it is not the
turn of the user, with WaitingResponse when an envido answer is
pending, and with InvalidCard when no card structurally equal to the
argument is in the hand (each error returns no new game, leaving the
original untouched); on success a THROW_CARD event is appended right
after the prior log, and when the throw does not decide the round the
returned game has the hand with the thrown card removed (exactly that
card, the hand being duplicate-free) and the card appended at the end
of the thrown list.  When the throw decides the round, round
resolution then rewrites the hands and thrown lists. -/
theorem C8_throwCard_contract :
    (∀ (g : Game) (u : UserId) (c : Card) (deal : List Card × List Card),
      g.state.playerTurn ≠ u → g.throwCard u c deal = .error .NotYourTurn) ∧
    (∀ (g : Game) (u : UserId) (c : Card) (deal : List Card × List Card),
      g.state.playerTurn = u → g.isWaitingResponse = true →
      g.throwCard u c deal = .error .WaitingResponse) ∧
    (∀ (g : Game) (u : UserId) (c : Card) (deal : List Card × List Card),
      g.state.playerTurn = u → g.isWaitingResponse = false →
      (g.state.cards u).contains c = false →
      g.throwCard u c deal = .error .InvalidCard) ∧
    (∀ (g g' : Game) (u : UserId) (c : Card) (deal : List Card × List Card),
      g.throwCard u c deal = .ok g' →
      ((g'.events.get? g.events.length).map GameEvent.type = some GameEventType.THROW_CARD) ∧
      (getRoundWinner g.getPlayersIds
          (rupd g.state.thrownCards u (g.state.thrownCards u ++ [c])) = none →
        g'.state.cards u = (g.state.cards u).filter (fun x => x != c) ∧
        ((g.state.cards u).Nodup → g'.state.cards u = (g.state.cards u).erase c) ∧
        g'.state.thrownCards u = g.state.thrownCards u ++ [c])) := by
  refine ⟨?_, ?_, ?_, ?_⟩
  · intro g u c deal h
    unfold Game.throwCard
    rw [if_pos h]
  · intro g u c deal h1 h2
    unfold Game.throwCard
    rw [if_neg (not_not_intro h1), if_pos h2]
  · intro g u c deal h1 h2 h3
    unfold Game.throwCard
    rw [if_neg (not_not_intro h1), if_neg (by simp [h2]),
      if_pos (show (!(g.state.cards u).contains c) = true by rw [h3]; rfl)]
  · intro g g' u c deal h
    unfold Game.throwCard at h
    dsimp only at h
    split at h
    · cases h
    · split at h
      · cases h
      · split at h
        · cases h
        · cases h
          constructor
          · exact Game.withRoundWinnerValidation_get_type _ g
              (buildThrowCardEvent u c _) deal rfl
          · intro hrw
            rw [Game.withRoundWinnerValidation_none]
            · refine ⟨?_, ?_, ?_⟩
              · simp [Game.setNextTurnPlayer_cards, rupd]
              · intro hnd
                simp [Game.setNextTurnPlayer_cards, rupd,
                  List.Nodup.erase_eq_filter hnd c]
              · simp [Game.setNextTurnPlayer_thrownCards, rupd]
            · simp only [Game.getPlayersIds, Game.setNextTurnPlayer_players,
                Game.setNextTurnPlayer_thrownCards]
              simp only [Game.getPlayersIds] at hrw
              exact hrw

theorem C8_throwCard_contract_witness :
    gT.throwCard 2 ⟨Suit.copa, 5⟩ dealX = .error .NotYourTurn ∧
    gC6.throwCard 1 ⟨Suit.oro, 4⟩ dealX = .error .WaitingResponse ∧
    gT.throwCard 1 ⟨Suit.copa, 7⟩ dealX = .error .InvalidCard :=
  ⟨C8_throwCard_contract.1 gT 2 ⟨Suit.copa, 5⟩ dealX (by decide),
   C8_throwCard_contract.2.1 gC6 1 ⟨Suit.oro, 4⟩ dealX rfl rfl,
   C8_throwCard_contract.2.2.1 gT 1 ⟨Suit.copa, 7⟩ dealX rfl rfl (by decide)⟩

theorem drop_len_append {α : Type} (l t : List α) : (l ++ t).drop l.length = t := by
  induction l with
  | nil => rfl
  | cons x xs ih => simpa using ih

theorem Game.setRoundWinner_tail (gMid gOld : Game) (e : GameEvent) (winner : UserId)
    (deal : List Card × List Card) (hev : gMid.events = gOld.events ++ [e]) :
    ∃ t, (gMid.setRoundWinner winner deal).events = gOld.events ++ t ∧ t ≠ [] := by
  obtain ⟨e1, e2, he⟩ := Game.setRoundWinner_events gMid winner deal
  refine ⟨e :: [e1, e2], ?_, by simp⟩
  rw [he, hev, List.append_assoc]
  rfl

theorem Game.envido_ok_events {g g' : Game} {u : UserId} {c : EnvidoCall}
    (h : g.envido u c = .ok g') : g'.events = g.events ++ [GameEvent.envidoCall c u] := by
  unfold Game.envido at h
  dsimp only at h
  split at h
  · cases h
  split at h
  · cases h
  split at h
  · cases h
  cases h
  rfl

theorem Game.answerEnvido_ok_events {g g' : Game} {u : UserId} {a : Bool}
    (h : g.answerEnvido u a = .ok g') : ∃ t, g'.events = g.events ++ t ∧ t ≠ [] := by
  unfold Game.answerEnvido at h
  dsimp only at h
  split at h
  · cases h
  split at h
  · cases h
  split at h
  · cases h
  cases h
  exact Game.withWinnerResult_getD_tail _ g _ rfl

theorem Game.goToDeck_ok_events {g g' : Game} {u : UserId} {deal : List Card × List Card}
    (h : g.goToDeck u deal = .ok g') : ∃ t, g'.events = g.events ++ t ∧ t ≠ [] := by
  unfold Game.goToDeck at h
  dsimp only at h
  split at h
  · cases h
  split at h
  · cases h
  cases h
  exact Game.setRoundWinner_tail _ g (buildToDeckEvent u) _ deal rfl

theorem Game.throwCard_ok_events {g g' : Game} {u : UserId} {c : Card}
    {deal : List Card × List Card} (h : g.throwCard u c deal = .ok g') :
    ∃ t, g'.events = g.events ++ t ∧ t ≠ [] := by
  unfold Game.throwCard at h
  dsimp only at h
  split at h
  · cases h
  split at h
  · cases h
  split at h
  · cases h
  cases h
  exact Game.withRoundWinnerValidation_tail _ g (buildThrowCardEvent u c _) deal rfl

/-- C9 amended: every transition keeps the prior event log as a
prefix of the new one; start, throwCard, envido, answerEnvido and
goToDeck append at least one event, while join appends none; and for
any pair of games whose logs extend each other, getNewEvents returns
exactly the appended suffix. -/
theorem C9_event_log_contract :
    (∀ (g : Game) (u : SafeUser), (g.join u).events = g.events) ∧
    (∀ (g : Game) (deal : List Card × List Card),
      ∃ t, (g.start deal).events = g.events ++ t ∧ t ≠ []) ∧
    (∀ (g g' : Game) (u : UserId) (c : Card) (deal : List Card × List Card),
      g.throwCard u c deal = .ok g' → ∃ t, g'.events = g.events ++ t ∧ t ≠ []) ∧
    (∀ (g g' : Game) (u : UserId) (c : EnvidoCall),
      g.envido u c = .ok g' → ∃ t, g'.events = g.events ++ t ∧ t ≠ []) ∧
    (∀ (g g' : Game) (u : UserId) (accepted : Bool),
      g.answerEnvido u accepted = .ok g' → ∃ t, g'.events = g.events ++ t ∧ t ≠ []) ∧
    (∀ (g g' : Game) (u : UserId) (deal : List Card × List Card),
      g.goToDeck u deal = .ok g' → ∃ t, g'.events = g.events ++ t ∧ t ≠ []) ∧
    (∀ (gOld gNew : Game), (∃ t, gNew.events = gOld.events ++ t) →
      gOld.events ++ gNew.getNewEvents gOld = gNew.events) := by
  refine ⟨?_, ?_, ?_, ?_, ?_, ?_, ?_⟩
  · intro g u
    rfl
  · intro g deal
    exact ⟨_, rfl, by simp⟩
  · intro g g' u c deal h
    exact Game.throwCard_ok_events h
  · intro g g' u c h
    exact ⟨_, Game.envido_ok_events h, by simp⟩
  · intro g g' u a h
    exact Game.answerEnvido_ok_events h
  · intro g g' u deal h
    exact Game.goToDeck_ok_events h
  · intro gOld gNew h
    obtain ⟨t, ht⟩ := h
    rw [Game.getNewEvents, ht, drop_len_append]

theorem C9_event_log_contract_witness :
    gBase.events ++ (gBase.start dealX).getNewEvents gBase = (gBase.start dealX).events :=
  C9_event_log_contract.2.2.2.2.2.2 gBase (gBase.start dealX) ⟨_, rfl⟩

theorem Game.withWinnerResult_getD_playerTurn (g : Game) :
    ((g.withWinnerResult).getD g).state.playerTurn = g.state.playerTurn :=
  (Game.withWinnerResult_getD_parts g).2.2.1

theorem Game.withWinnerResult_getD_points (g : Game) :
    ((g.withWinnerResult).getD g).state.points = g.state.points :=
  (Game.withWinnerResult_getD_parts g).2.2.2.1

theorem Game.withWinnerResult_getD_envido (g : Game) :
    ((g.withWinnerResult).getD g).state.envido = g.state.envido :=
  (Game.withWinnerResult_getD_parts g).2.2.2.2

/-- C6: answering a pending envido: if declined, the recorded winner
is the last caller, who is awarded exactly one point per call on the
chain while the decliner gains nothing; if accepted, both players
envido values are computed over their held plus thrown cards, the
higher value wins with ties to the mano (firstPlayer) and the winner
is awarded getEnvidoPoints while the loser gains nothing; in both
cases the points are added to state.points, the matching
ENVIDO_DECLINED or ENVIDO_ACCEPTED event is appended right after the
prior log, and the turn returns to the first caller. -/
theorem C6_answerEnvido_resolution (g : Game) (a b : SafeUser) (userId lc fc : UserId)
    (accepted : Bool)
    (hp : g.players = [a, b]) (hne : a.id ≠ b.id)
    (hturn : g.state.playerTurn = userId)
    (hstep : g.step = 1)
    (hwait : g.state.envido.waitingResponse = true)
    (hlc : g.state.envido.lastCaller = some lc)
    (hfc : g.state.envido.firstCaller = some fc)
    (huser : (userId = a.id ∧ lc = b.id) ∨ (userId = b.id ∧ lc = a.id))
    (hfp : g.state.firstPlayer = a.id ∨ g.state.firstPlayer = b.id) :
    ∃ g', g.answerEnvido userId accepted = .ok g' ∧
      g'.state.playerTurn = fc ∧
      g'.state.envido.waitingResponse = false ∧
      g'.state.envido.acceptedBy = some userId ∧
      g'.state.envido.accepted = some accepted ∧
      (g'.events.get? g.events.length).map GameEvent.type =
        some (if accepted then GameEventType.ENVIDO_ACCEPTED else GameEventType.ENVIDO_DECLINED) ∧
      (accepted = false →
        g'.state.envido.winner = some lc ∧
        g'.state.points lc = g.state.points lc + (g.state.envido.calls.length : Int) ∧
        g'.state.points userId = g.state.points userId) ∧
      (accepted = true →
        (getEnvidoCardsValue (g.state.cards a.id ++ g.state.thrownCards a.id) =
            getEnvidoCardsValue (g.state.cards b.id ++ g.state.thrownCards b.id) →
          g'.state.envido.winner = some g.state.firstPlayer ∧
          g'.state.points g.state.firstPlayer =
            g.state.points g.state.firstPlayer + g.getEnvidoPoints g.state.firstPlayer) ∧
        (getEnvidoCardsValue (g.state.cards a.id ++ g.state.thrownCards a.id) >
            getEnvidoCardsValue (g.state.cards b.id ++ g.state.thrownCards b.id) →
          g'.state.envido.winner = some a.id ∧
          g'.state.points a.id = g.state.points a.id + g.getEnvidoPoints a.id ∧
          g'.state.points b.id = g.state.points b.id) ∧
        (getEnvidoCardsValue (g.state.cards a.id ++ g.state.thrownCards a.id) <
            getEnvidoCardsValue (g.state.cards b.id ++ g.state.thrownCards b.id) →
          g'.state.envido.winner = some b.id ∧
          g'.state.points b.id = g.state.points b.id + g.getEnvidoPoints b.id ∧
          g'.state.points a.id = g.state.points a.id)) := by
  have hpa : g.player0 = a := Game.player0_eq hp
  have hpb : g.player1 = b := Game.player1_eq hp
  have hoa : g.otherPlayerId a.id = b.id := Game.otherPlayerId_snd hp hne
  have hob : g.otherPlayerId b.id = a.id := Game.otherPlayerId_fst hp hne
  unfold Game.answerEnvido
  rw [if_neg (not_not_intro hturn), if_neg (not_not_intro hstep), if_neg (by simp [hwait])]
  cases accepted with
  | false =>
    refine ⟨_, rfl, ?_, ?_, ?_, ?_, ?_, ?_, ?_⟩
    · rw [Game.withWinnerResult_getD_playerTurn]
      dsimp only
      rw [hfc]
      rfl
    · rw [Game.withWinnerResult_getD_envido]
    · rw [Game.withWinnerResult_getD_envido]
    · rw [Game.withWinnerResult_getD_envido]
    · refine Game.withWinnerResult_getD_get_type _ g
        (GameEvent.envidoDeclined userId
          (rec2 0 (g.player0).id
            (g.state.points (g.player0).id + (g.analyzeEnvido userId false).2 (g.player0).id)
            (g.player1).id
            (g.state.points (g.player1).id + (g.analyzeEnvido userId false).2 (g.player1).id))) ?_
      simp
    · intro _
      refine ⟨?_, ?_, ?_⟩
      · rw [Game.withWinnerResult_getD_envido]
        dsimp only
        simp [Game.analyzeEnvido, hlc]
      · rw [Game.withWinnerResult_getD_points]
        dsimp only
        rcases huser with ⟨hu, hl⟩ | ⟨hu, hl⟩ <;> subst hu <;> subst hl <;>
          simp [Game.analyzeEnvido, hlc, hpa, hpb, rec2, hne, Ne.symm hne]
      · rw [Game.withWinnerResult_getD_points]
        dsimp only
        rcases huser with ⟨hu, hl⟩ | ⟨hu, hl⟩ <;> subst hu <;> subst hl <;>
          simp [Game.analyzeEnvido, hlc, hpa, hpb, rec2, hne, Ne.symm hne]
    · intro h
      cases h
  | true =>
    refine ⟨_, rfl, ?_, ?_, ?_, ?_, ?_, ?_, ?_⟩
    · rw [Game.withWinnerResult_getD_playerTurn]
      dsimp only
      rw [hfc]
      rfl
    · rw [Game.withWinnerResult_getD_envido]
    · rw [Game.withWinnerResult_getD_envido]
    · rw [Game.withWinnerResult_getD_envido]
    · refine Game.withWinnerResult_getD_get_type _ g
        (GameEvent.envidoAccepted userId
          (rec2 0 (g.player0).id
            (g.state.points (g.player0).id + (g.analyzeEnvido userId true).2 (g.player0).id)
            (g.player1).id
            (g.state.points (g.player1).id + (g.analyzeEnvido userId true).2 (g.player1).id))) ?_
      simp
    · intro h
      cases h
    · intro _
      refine ⟨?_, ?_, ?_⟩
      · intro hv
        constructor
        · rw [Game.withWinnerResult_getD_envido]
          dsimp only
          simp [Game.analyzeEnvido, hpa, hpb, hv]
        · rw [Game.withWinnerResult_getD_points]
          dsimp only
          rcases hfp with hf | hf <;>
            simp [Game.analyzeEnvido, hpa, hpb, hv, hf, rec2, hne, Ne.symm hne, hoa, hob]
      · intro hv
        have hv1 : ¬ (getEnvidoCardsValue (g.state.cards a.id ++ g.state.thrownCards a.id) =
            getEnvidoCardsValue (g.state.cards b.id ++ g.state.thrownCards b.id)) := by omega
        refine ⟨?_, ?_, ?_⟩
        · rw [Game.withWinnerResult_getD_envido]
          dsimp only
          simp [Game.analyzeEnvido, hpa, hpb, hv, hv1]
        · rw [Game.withWinnerResult_getD_points]
          dsimp only
          simp [Game.analyzeEnvido, hpa, hpb, hv, hv1, rec2, hne, Ne.symm hne, hoa, hob]
        · rw [Game.withWinnerResult_getD_points]
          dsimp only
          simp [Game.analyzeEnvido, hpa, hpb, hv, hv1, rec2, hne, Ne.symm hne, hoa, hob]
      · intro hv
        have hv1 : ¬ (getEnvidoCardsValue (g.state.cards a.id ++ g.state.thrownCards a.id) =
            getEnvidoCardsValue (g.state.cards b.id ++ g.state.thrownCards b.id)) := by omega
        have hv2 : ¬ (getEnvidoCardsValue (g.state.cards a.id ++ g.state.thrownCards a.id) >
            getEnvidoCardsValue (g.state.cards b.id ++ g.state.thrownCards b.id)) := by omega
        refine ⟨?_, ?_, ?_⟩
        · rw [Game.withWinnerResult_getD_envido]
          dsimp only
          simp [Game.analyzeEnvido, hpa, hpb, hv1, hv2]
        · rw [Game.withWinnerResult_getD_points]
          dsimp only
          simp [Game.analyzeEnvido, hpa, hpb, hv1, hv2, rec2, hne, Ne.symm hne, hoa, hob]
        · rw [Game.withWinnerResult_getD_points]
          dsimp only
          simp [Game.analyzeEnvido, hpa, hpb, hv1, hv2, rec2, hne, Ne.symm hne, hoa, hob]


theorem C6_answerEnvido_resolution_witness :
    ∃ g', gC6.answerEnvido 1 false = .ok g' ∧
      g'.state.playerTurn = 2 ∧
      g'.state.envido.waitingResponse = false ∧
      (g'.events.get? gC6.events.length).map GameEvent.type =
        some GameEventType.ENVIDO_DECLINED := by
  obtain ⟨g', hok, ht, hwr, -, -, hev, -, -⟩ :=
    C6_answerEnvido_resolution gC6 uA uB 1 2 2 false rfl (by decide) rfl (by decide) rfl rfl rfl
      (Or.inl ⟨rfl, rfl⟩) (Or.inl rfl)
  exact ⟨g', hok, ht, hwr, by simpa using hev⟩

/-- C8 counterexample: a throw that decides the round (player 1 wins
tricks 1 and 2 outright) returns a game already advanced to the next
round: thrownCards was reset, so the returned game does not show the
thrown card appended at the end of thrownCards as the claim states
for every success. -/
theorem C8_resolving_throw_counterexample :
    gC8.state.playerTurn = 1 ∧
    gC8.state.cards 1 = [⟨Suit.basto, 1⟩] ∧
    gC8.state.thrownCards 1 = [⟨Suit.espada, 1⟩] ∧
    (gC8.throwCard 1 ⟨Suit.basto, 1⟩ dealX).toOption.map
      (fun g => g.state.thrownCards 1) = some [] ∧
    gC8.state.thrownCards 1 ++ [⟨Suit.basto, 1⟩] ≠ ([] : List Card) := by
  refine ⟨rfl, rfl, rfl, by decide, by decide⟩
